import Mathlib

/-!
# Verification of the ImageMath expression evaluator

A shallow embedding of `src/PIL/ImageMath.py`: the `_Operand` wrapper with its
type-promotion, shape-reconciliation and kernel-dispatch logic, the fixed
`imagemath_*` operation vocabulary, and the restricted `eval` entry point with
its binding validation, compiled-code name scan and execution-context semantics.

External collaborators (the image value type `PIL.Image` and the kernel module
`_imagingmath`, which are not part of the embedded source file) are modelled
from the spec, as marked in their doc comments.  Everything else is translated
directly from the Python source.
-/

namespace ImageMath

/-! ### The image value type (external collaborator) -/

/-- Modelled from the spec: the image-like value provider (`PIL.Image`, not
under the embedded source).  An image has a representation tag `mode`, a
`size` `(width, height)` and pixel contents; pixel values are modelled as
rationals, covering both the integer and the floating-point representations
(the spec treats kernels as numeric functions and promises lossless widening,
which the rational model satisfies). -/
structure Image where
  mode : String
  size : Nat × Nat
  pix : Nat → Nat → Rat

/-- Modelled from the spec: `newImage(mode, size, fill?) -> Image`.  A missing
fill (`None`, an uninitialized buffer that the kernel overwrites) is modelled
as zero. -/
def Image.new (mode : String) (size : Nat × Nat) (fill : Option Rat) : Image :=
  { mode := mode, size := size, pix := fun _ _ => (fill.getD 0) }

/-- Modelled from the spec: `image.convert(mode) -> Image` changes the
representation tag; pixel values are carried over (the conversions the core
performs are the lossless widenings "1"/"L" to "I" and "I" to "F"). -/
def Image.convert (im : Image) (mode : String) : Image :=
  { mode := mode, size := im.size, pix := im.pix }

/-- Modelled from the spec: `image.crop(rect) -> Image`, top-left anchored
rectangle `(x0, y0, x1, y1)`. -/
def Image.crop (im : Image) (x0 y0 x1 y1 : Nat) : Image :=
  { mode := im.mode, size := (x1 - x0, y1 - y0),
    pix := fun i j => im.pix (x0 + i) (y0 + j) }

/-! ### The kernel registry (external collaborator) -/

/-- Modelled from the spec: the unary kernels of the `_imagingmath` registry
(not under the embedded source), pointwise on pixel values. -/
def unopKernel (op : String) (x : Rat) : Rat :=
  if op == "abs" then |x|
  else if op == "neg" then -x
  else if op == "invert" then -x - 1
  else 0

/-- Modelled from the spec: the binary kernels of the `_imagingmath` registry,
pointwise on pixel values.  `pow` and the bitwise family are given total
stand-ins (no claim depends on their pointwise values); comparison kernels
produce 1/0 masks as the spec describes. -/
def binopKernel (op : String) (x y : Rat) : Rat :=
  if op == "add" then x + y
  else if op == "sub" then x - y
  else if op == "mul" then x * y
  else if op == "div" then (if y = 0 then 0 else x / y)
  else if op == "mod" then (if y = 0 then 0 else x - y * ((⌊x / y⌋ : Int) : Rat))
  else if op == "min" then min x y
  else if op == "max" then max x y
  else if op == "eq" then (if x = y then 1 else 0)
  else if op == "ne" then (if x = y then 0 else 1)
  else if op == "lt" then (if x < y then 1 else 0)
  else if op == "le" then (if x ≤ y then 1 else 0)
  else if op == "gt" then (if y < x then 1 else 0)
  else if op == "ge" then (if y ≤ x then 1 else 0)
  else 0

/-- Modelled from the spec: the set of `(operation, mode)` kernels present in
the registry, keyed `op_mode` exactly as the source's
`getattr(_imagingmath, op + "_" + im_1.mode)` lookup expects; arithmetic,
comparison and min/max kernels exist for modes "I" and "F", the bitwise
family only for mode "I".  Lookup failure is the expected
`UnsupportedOperationError` outcome. -/
def kernelKeys : List String :=
  [ "abs_I", "neg_I", "add_I", "sub_I", "mul_I", "div_I", "mod_I", "pow_I",
    "invert_I", "and_I", "or_I", "xor_I", "lshift_I", "rshift_I",
    "min_I", "max_I", "eq_I", "ne_I", "lt_I", "le_I", "gt_I", "ge_I",
    "abs_F", "neg_F", "add_F", "sub_F", "mul_F", "div_F", "mod_F", "pow_F",
    "min_F", "max_F", "eq_F", "ne_F", "lt_F", "le_F", "gt_F", "ge_F" ]

/-- Whether a kernel with the given key is present in the registry. -/
def kernelDefined (key : String) : Bool :=
  kernelKeys.contains key

/-! ### Errors -/

/-- The failure taxonomy of the evaluator.  `forbiddenName` is the
`ValueError("'k' not allowed")` of binding validation and the name scan;
`unsupportedMode` the `ValueError("unsupported mode: m")` of `__fixup`;
`badOperandType` the `TypeError("bad operand type for 'op'")` of a failed
kernel lookup; the remaining constructors model errors of the host runtime
(missing reflected operator, bad call arguments, unresolvable name). -/
inductive EvalError where
  | forbiddenName (n : String)
  | unsupportedMode (m : String)
  | badOperandType (op : String)
  | typeError (msg : String)
  | attributeError (n : String)
  | nameError (n : String)
  | notModelled (what : String)
deriving Repr, DecidableEq

/-! ### The Operand wrapper (`_Operand`) -/

/-- `_Operand`: wraps an image operand, providing standard operators. -/
structure _Operand where
  im : Image

/-- `_Operand.__fixup`: convert an argument (an Operand or a bare numeric
constant) to an image of suitable mode.  Translated from the source:
modes "1"/"L" are promoted to "I"; "I"/"F" pass through; any other Operand
mode raises `unsupported mode`; a constant is materialized as a
constant-filled image sized to `self`, in mode "I" when `self` is
"1"/"L"/"I" and in mode "F" otherwise (the source's
`isinstance(im1, (int, float))` guard is vacuously true for numeric
constants, which are the only non-Operand arguments the typing admits). -/
def _Operand.fixup (self : _Operand) (im1 : _Operand ⊕ Rat) :
    Except EvalError Image :=
  match im1 with
  | .inl o =>
    if o.im.mode == "1" || o.im.mode == "L" then
      .ok (o.im.convert "I")
    else if o.im.mode == "I" || o.im.mode == "F" then
      .ok o.im
    else
      .error (.unsupportedMode o.im.mode)
  | .inr c =>
    if self.im.mode == "1" || self.im.mode == "L" || self.im.mode == "I" then
      .ok (Image.new "I" self.im.size (some c))
    else
      .ok (Image.new "F" self.im.size (some c))

/-- Mode reconciliation of `_Operand.apply` (source lines 71-76): if the two
fixed-up modes differ, convert both arguments to floating point (each is
converted only when it is not already "F"). -/
def reconcileModes (im_1 im_2 : Image) : Image × Image :=
  if im_1.mode != im_2.mode then
    ((if im_1.mode != "F" then im_1.convert "F" else im_1),
     (if im_2.mode != "F" then im_2.convert "F" else im_2))
  else
    (im_1, im_2)

/-- Shape reconciliation of `_Operand.apply` (source lines 77-86): if the two
sizes differ, crop both arguments, top-left anchored, to the element-wise
minimum size (each is cropped only when its size is not already the common
size). -/
def reconcileSizes (im_1 im_2 : Image) : Image × Image :=
  if im_1.size != im_2.size then
    let size := (min im_1.size.1 im_2.size.1, min im_1.size.2 im_2.size.2)
    ((if im_1.size != size then im_1.crop 0 0 size.1 size.2 else im_1),
     (if im_2.size != size then im_2.crop 0 0 size.1 size.2 else im_2))
  else
    (im_1, im_2)

/-- `_Operand.apply`: fix up the operand(s); for a binary operation reconcile
modes and sizes; allocate the output image (`mode or im_1.mode`, size of
`im_1`); look up the kernel `op_mode` (absence is
`TypeError: bad operand type`); invoke it to fill the output; and return a
fresh Operand wrapping the output. -/
def _Operand.apply (self : _Operand) (op : String) (im1 : _Operand ⊕ Rat)
    (im2 : Option (_Operand ⊕ Rat)) (mode : Option String) :
    Except EvalError _Operand :=
  match self.fixup im1 with
  | .error e => .error e
  | .ok im_1 =>
    match im2 with
    | none =>
      let out := Image.new (mode.getD im_1.mode) im_1.size none
      if kernelDefined (op ++ "_" ++ im_1.mode) then
        .ok ⟨{ out with pix := fun i j => unopKernel op (im_1.pix i j) }⟩
      else
        .error (.badOperandType op)
    | some v2 =>
      match self.fixup v2 with
      | .error e => .error e
      | .ok im_2 =>
        match reconcileModes im_1 im_2 with
        | (im_1, im_2) =>
          match reconcileSizes im_1 im_2 with
          | (im_1, im_2) =>
            let out := Image.new (mode.getD im_1.mode) im_1.size none
            if kernelDefined (op ++ "_" ++ im_1.mode) then
              .ok ⟨{ out with
                     pix := fun i j => binopKernel op (im_1.pix i j) (im_2.pix i j) }⟩
            else
              .error (.badOperandType op)

/-! ### Operator methods of `_Operand` (source lines 99-194)

Each Python dunder method is one definition: `absM` is `__abs__`, `addM` is
`__add__`, `raddM` is `__radd__`, and so on.  The source defines reflected
(`__r...__`) methods for add, sub, mul, truediv, mod, pow, and, or and xor,
but none for lshift or rshift. -/

/-- `__abs__`. -/
def _Operand.absM (x : _Operand) : Except EvalError _Operand :=
  x.apply "abs" (.inl x) none none

/-- `__pos__`: returns `self` itself, not a new Operand. -/
def _Operand.posM (x : _Operand) : _Operand :=
  x

/-- `__neg__`. -/
def _Operand.negM (x : _Operand) : Except EvalError _Operand :=
  x.apply "neg" (.inl x) none none

/-- `__add__`. -/
def _Operand.addM (x : _Operand) (other : _Operand ⊕ Rat) : Except EvalError _Operand :=
  x.apply "add" (.inl x) (some other) none

/-- `__radd__`: note the argument order `(other, self)`. -/
def _Operand.raddM (x : _Operand) (other : _Operand ⊕ Rat) : Except EvalError _Operand :=
  x.apply "add" other (some (.inl x)) none

/-- `__sub__`. -/
def _Operand.subM (x : _Operand) (other : _Operand ⊕ Rat) : Except EvalError _Operand :=
  x.apply "sub" (.inl x) (some other) none

/-- `__rsub__`. -/
def _Operand.rsubM (x : _Operand) (other : _Operand ⊕ Rat) : Except EvalError _Operand :=
  x.apply "sub" other (some (.inl x)) none

/-- `__mul__`. -/
def _Operand.mulM (x : _Operand) (other : _Operand ⊕ Rat) : Except EvalError _Operand :=
  x.apply "mul" (.inl x) (some other) none

/-- `__rmul__`. -/
def _Operand.rmulM (x : _Operand) (other : _Operand ⊕ Rat) : Except EvalError _Operand :=
  x.apply "mul" other (some (.inl x)) none

/-- `__truediv__`. -/
def _Operand.divM (x : _Operand) (other : _Operand ⊕ Rat) : Except EvalError _Operand :=
  x.apply "div" (.inl x) (some other) none

/-- `__rtruediv__`. -/
def _Operand.rdivM (x : _Operand) (other : _Operand ⊕ Rat) : Except EvalError _Operand :=
  x.apply "div" other (some (.inl x)) none

/-- `__mod__`. -/
def _Operand.modM (x : _Operand) (other : _Operand ⊕ Rat) : Except EvalError _Operand :=
  x.apply "mod" (.inl x) (some other) none

/-- `__rmod__`. -/
def _Operand.rmodM (x : _Operand) (other : _Operand ⊕ Rat) : Except EvalError _Operand :=
  x.apply "mod" other (some (.inl x)) none

/-- `__pow__`. -/
def _Operand.powM (x : _Operand) (other : _Operand ⊕ Rat) : Except EvalError _Operand :=
  x.apply "pow" (.inl x) (some other) none

/-- `__rpow__`. -/
def _Operand.rpowM (x : _Operand) (other : _Operand ⊕ Rat) : Except EvalError _Operand :=
  x.apply "pow" other (some (.inl x)) none

/-- `__invert__`. -/
def _Operand.invertM (x : _Operand) : Except EvalError _Operand :=
  x.apply "invert" (.inl x) none none

/-- `__and__`. -/
def _Operand.andM (x : _Operand) (other : _Operand ⊕ Rat) : Except EvalError _Operand :=
  x.apply "and" (.inl x) (some other) none

/-- `__rand__`. -/
def _Operand.randM (x : _Operand) (other : _Operand ⊕ Rat) : Except EvalError _Operand :=
  x.apply "and" other (some (.inl x)) none

/-- `__or__`. -/
def _Operand.orM (x : _Operand) (other : _Operand ⊕ Rat) : Except EvalError _Operand :=
  x.apply "or" (.inl x) (some other) none

/-- `__ror__`. -/
def _Operand.rorM (x : _Operand) (other : _Operand ⊕ Rat) : Except EvalError _Operand :=
  x.apply "or" other (some (.inl x)) none

/-- `__xor__`. -/
def _Operand.xorM (x : _Operand) (other : _Operand ⊕ Rat) : Except EvalError _Operand :=
  x.apply "xor" (.inl x) (some other) none

/-- `__rxor__`. -/
def _Operand.rxorM (x : _Operand) (other : _Operand ⊕ Rat) : Except EvalError _Operand :=
  x.apply "xor" other (some (.inl x)) none

/-- `__lshift__` (the source has no `__rlshift__`). -/
def _Operand.lshiftM (x : _Operand) (other : _Operand ⊕ Rat) : Except EvalError _Operand :=
  x.apply "lshift" (.inl x) (some other) none

/-- `__rshift__` (the source has no `__rrshift__`). -/
def _Operand.rshiftM (x : _Operand) (other : _Operand ⊕ Rat) : Except EvalError _Operand :=
  x.apply "rshift" (.inl x) (some other) none

/-- `__eq__`. -/
def _Operand.eqM (x : _Operand) (other : _Operand ⊕ Rat) : Except EvalError _Operand :=
  x.apply "eq" (.inl x) (some other) none

/-- `__ne__`. -/
def _Operand.neM (x : _Operand) (other : _Operand ⊕ Rat) : Except EvalError _Operand :=
  x.apply "ne" (.inl x) (some other) none

/-- `__lt__`. -/
def _Operand.ltM (x : _Operand) (other : _Operand ⊕ Rat) : Except EvalError _Operand :=
  x.apply "lt" (.inl x) (some other) none

/-- `__le__`. -/
def _Operand.leM (x : _Operand) (other : _Operand ⊕ Rat) : Except EvalError _Operand :=
  x.apply "le" (.inl x) (some other) none

/-- `__gt__`. -/
def _Operand.gtM (x : _Operand) (other : _Operand ⊕ Rat) : Except EvalError _Operand :=
  x.apply "gt" (.inl x) (some other) none

/-- `__ge__`. -/
def _Operand.geM (x : _Operand) (other : _Operand ⊕ Rat) : Except EvalError _Operand :=
  x.apply "ge" (.inl x) (some other) none

/-! ### The fixed operation vocabulary (`imagemath_*`, source lines 197-230) -/

/-- `imagemath_int`. -/
def imagemath_int (self : _Operand) : _Operand :=
  ⟨self.im.convert "I"⟩

/-- `imagemath_float`. -/
def imagemath_float (self : _Operand) : _Operand :=
  ⟨self.im.convert "F"⟩

/-- `imagemath_equal`: binary `eq` forced to mode "I" output. -/
def imagemath_equal (self : _Operand) (other : _Operand ⊕ Rat) :
    Except EvalError _Operand :=
  self.apply "eq" (.inl self) (some other) (some "I")

/-- `imagemath_notequal`: binary `ne` forced to mode "I" output. -/
def imagemath_notequal (self : _Operand) (other : _Operand ⊕ Rat) :
    Except EvalError _Operand :=
  self.apply "ne" (.inl self) (some other) (some "I")

/-- `imagemath_min`. -/
def imagemath_min (self : _Operand) (other : _Operand ⊕ Rat) :
    Except EvalError _Operand :=
  self.apply "min" (.inl self) (some other) none

/-- `imagemath_max`. -/
def imagemath_max (self : _Operand) (other : _Operand ⊕ Rat) :
    Except EvalError _Operand :=
  self.apply "max" (.inl self) (some other) none

/-- `imagemath_convert`. -/
def imagemath_convert (self : _Operand) (mode : String) : _Operand :=
  ⟨self.im.convert mode⟩

/-! ### Runtime values and the evaluation namespace -/

/-- A runtime value of the evaluator: numbers (Python int/float collapsed into
the rational model), strings, booleans, Operand-wrapped images, raw images,
the `imagemath_*` vocabulary functions of the `ops` table (by name), values
of the host builtins module (by name), and the sandbox dictionary literal
stored under the key `"__builtins"` at the execution step. -/
inductive PyVal where
  | num (r : Rat)
  | str (s : String)
  | boolV (b : Bool)
  | img (o : _Operand)
  | rawImage (im : Image)
  | fnV (n : String)
  | hostFn (n : String)
  | builtinsDict

/-- A value a caller may bind to a name: an image or a number
(the public interface's `mapping<string, ImageOrNumber>`). -/
inductive BindVal where
  | image (im : Image)
  | num (r : Rat)

/-- An evaluation namespace: an association list from identifiers to runtime
values, first match wins. -/
abbrev Namespace := List (String × PyVal)

/-- First-match lookup in a namespace. -/
def nsLookup (ns : Namespace) (n : String) : Option PyVal :=
  match ns with
  | [] => none
  | (k, v) :: rest => if k == n then some v else nsLookup rest n

/-- The `ops` table built from the `imagemath_*` globals (source lines
227-230), in definition order. -/
def opsList : Namespace :=
  [ ("int", .fnV "int"), ("float", .fnV "float"),
    ("equal", .fnV "equal"), ("notequal", .fnV "notequal"),
    ("min", .fnV "min"), ("max", .fnV "max"),
    ("convert", .fnV "convert") ]

/-- Modelled from the spec: the name set of the host language's builtins
module (`hasattr(builtins, k)` in the source).  A finite model of CPython's
builtins namespace, faithful on every identifier occurring in the claims:
it contains the genuine builtin names (in particular `abs`, `int`, `float`,
`min`, `max`) and no identifier that is not a CPython builtin. -/
def pythonBuiltins : List String :=
  [ "abs", "all", "any", "ascii", "bin", "bool", "breakpoint", "bytearray",
    "bytes", "callable", "chr", "classmethod", "compile", "complex",
    "delattr", "dict", "dir", "divmod", "enumerate", "filter", "float",
    "format", "frozenset", "getattr", "globals", "hasattr", "hash", "help",
    "hex", "id", "input", "int", "isinstance", "issubclass", "iter", "len",
    "list", "locals", "map", "max", "memoryview", "min", "next", "object",
    "oct", "open", "ord", "pow", "print", "property", "range", "repr",
    "reversed", "round", "set", "setattr", "slice", "sorted",
    "staticmethod", "str", "sum", "super", "tuple", "type", "vars", "zip",
    "Exception", "ValueError", "TypeError", "NameError", "KeyError" ]

/-- Whether two consecutive characters of the list are both underscores. -/
def hasDUAux (prev : Char) (cs : List Char) : Bool :=
  match cs with
  | [] => false
  | c :: rest => (prev == '_' && c == '_') || hasDUAux c rest

/-- Whether a string contains the substring `"__"`
(the source's `"__" in k` test). -/
def hasDoubleUnderscore (s : String) : Bool :=
  match s.data with
  | [] => false
  | c :: rest => hasDUAux c rest

/-- Binding validation (source lines 248-251): scan the binding keys in order
and report the first key that contains a double underscore or is a name of
the host builtins module; `none` means all keys are allowed.  This runs
before the bindings are merged into the namespace. -/
def validateBindings (d : List (String × BindVal)) : Option String :=
  match d with
  | [] => none
  | (k, _) :: rest =>
    if hasDoubleUnderscore k || pythonBuiltins.contains k then some k
    else validateBindings rest

/-- The runtime value of a binding before Operand wrapping. -/
def bindToVal (v : BindVal) : PyVal :=
  match v with
  | .image im => .rawImage im
  | .num r => .num r

/-- The Operand-wrapping pass over the merged namespace (source lines
255-257): every value that exposes an image attribute is wrapped in an
`_Operand`; numbers and the vocabulary functions are left as they are. -/
def wrapVal (v : PyVal) : PyVal :=
  match v with
  | .rawImage im => .img ⟨im⟩
  | v => v

/-- Namespace construction (source lines 246-257): start from a copy of
`ops`, merge the validated bindings over it (later duplicates of one key
win, as for a Python dict update), then wrap image values in Operands. -/
def buildNamespace (d : List (String × BindVal)) : Namespace :=
  (((d.map (fun p => (p.1, bindToVal p.2))).reverse ++ opsList).map
    (fun p => (p.1, wrapVal p.2)))

/-! ### Expressions and compiled code objects -/

/-- The operator of a binary expression. -/
inductive BinOp where
  | add | sub | mul | div | mod | pow
  | and | or | xor | lshift | rshift
  | eq | ne | lt | le | gt | ge
deriving Repr, DecidableEq

/-- The operator of a unary expression. -/
inductive UnOp where
  | neg | pos | invert
deriving Repr, DecidableEq

mutual
/-- The expression fragment of the host language that the evaluator is fed:
names, numeric and string constants, unary and binary operators, calls,
attribute access and lambda abstractions (the nested code objects of the
compiled form). -/
inductive Expr where
  | name (n : String)
  | num (c : Rat)
  | str (s : String)
  | binop (op : BinOp) (a b : Expr)
  | unop (op : UnOp) (a : Expr)
  | call (f : Expr) (args : ExprList)
  | attr (e : Expr) (fld : String)
  | lam (params : List String) (body : Expr)
/-- A list of argument expressions. -/
inductive ExprList where
  | nil
  | cons (e : Expr) (es : ExprList)
end

mutual
/-- A compiled code object: its referenced names (`co_names`) and its nested
code objects (the code constants among `co_consts`). -/
inductive Code where
  | mk (names : List String) (consts : CodeList)
/-- A list of nested code objects. -/
inductive CodeList where
  | nil
  | cons (c : Code) (cs : CodeList)
end

/-- The names of a code object. -/
def Code.names (c : Code) : List String :=
  match c with
  | .mk ns _ => ns

/-- The nested code objects of a code object. -/
def Code.consts (c : Code) : CodeList :=
  match c with
  | .mk _ cs => cs

/-- Concatenation of nested-code lists. -/
def CodeList.append (a b : CodeList) : CodeList :=
  match a with
  | .nil => b
  | .cons c cs => .cons c (cs.append b)

/-- Merge of two code objects living at the same nesting level. -/
def Code.merge (a b : Code) : Code :=
  .mk (a.names ++ b.names) (a.consts.append b.consts)

mutual
/-- Modelled from the host language semantics of `compile(expression,
"<string>", "eval")`: the names a code object records in `co_names` are the
identifiers referenced outside any enclosing binder (lambda parameters
become local or closure variables, not `co_names` entries), plus attribute
names; each lambda becomes a nested code object among the constants, scoped
with its parameters bound. -/
def compileWith (bound : List String) (e : Expr) : Code :=
  match e with
  | .name n => .mk (if bound.contains n then [] else [n]) .nil
  | .num _ => .mk [] .nil
  | .str _ => .mk [] .nil
  | .binop _ a b => (compileWith bound a).merge (compileWith bound b)
  | .unop _ a => compileWith bound a
  | .call f args => (compileWith bound f).merge (compileListWith bound args)
  | .attr e fld => (compileWith bound e).merge (.mk [fld] .nil)
  | .lam params body => .mk [] (.cons (compileWith (params ++ bound) body) .nil)
/-- Compilation of an argument list, merging the pieces. -/
def compileListWith (bound : List String) (es : ExprList) : Code :=
  match es with
  | .nil => .mk [] .nil
  | .cons e rest => (compileWith bound e).merge (compileListWith bound rest)
end

/-- `compile(expression, "<string>", "eval")` at the top level: no enclosing
binders. -/
def compileExpr (e : Expr) : Code :=
  compileWith [] e

mutual
/-- All names of a code object, those of nested code objects included. -/
def codeNames (c : Code) : List String :=
  match c with
  | .mk ns cs => codeListNames cs ++ ns
/-- All names of a list of code objects. -/
def codeListNames (cs : CodeList) : List String :=
  match cs with
  | .nil => []
  | .cons c rest => codeNames c ++ codeListNames rest
end

/-- The first name of a list that is neither in the namespace nor the
hard-coded exception `abs`. -/
def firstDisallowed (args : Namespace) (names : List String) : Option String :=
  match names with
  | [] => none
  | n :: rest =>
    if !(nsLookup args n).isSome && n != "abs" then some n
    else firstDisallowed args rest

mutual
/-- The `scan` closure of the source (lines 261-269): recursively scan the
nested code objects among the constants, then check every name of
`co_names` against the namespace, allowing the single exception `abs`;
the result is the first disallowed name, or `none` when the code is clean. -/
def scanCode (args : Namespace) (c : Code) : Option String :=
  match c with
  | .mk ns cs =>
    match scanCodes args cs with
    | some n => some n
    | none => firstDisallowed args ns
/-- Scan of a list of nested code objects. -/
def scanCodes (args : Namespace) (cs : CodeList) : Option String :=
  match cs with
  | .nil => none
  | .cons c rest =>
    match scanCode args c with
    | some n => some n
    | none => scanCodes args rest
end

/-! ### The execution context of `builtins.eval` (source line 272) -/

/-- The globals dictionary passed to the host evaluator, exactly as written
in the source: a single entry whose key is the string `"__builtins"` (note:
not the host's reserved key, which ends in a double underscore) holding the
dictionary containing only `abs`. -/
def execGlobalsDict : Namespace :=
  [("__builtins", .builtinsDict)]

/-- Modelled from the host language semantics: the host evaluator injects its
full builtins namespace into the execution context whenever the supplied
globals dictionary has no entry under the reserved double-underscore
builtins key.  `execGlobalsDict` has no such entry, so this is `true`. -/
def hostBuiltinsInjected : Bool :=
  !(execGlobalsDict.any (fun p => p.1 == "__" ++ "builtins" ++ "__"))

/-- Name resolution in the execution context: locals (the constructed
namespace) first, then the supplied globals dictionary, then — because the
host injected it — the host's full builtins namespace. -/
def resolveExecName (args : Namespace) (n : String) : Option PyVal :=
  match nsLookup args n with
  | some v => some v
  | none =>
    match nsLookup execGlobalsDict n with
    | some v => some v
    | none =>
      if hostBuiltinsInjected && pythonBuiltins.contains n then
        some (.hostFn n)
      else none

/-! ### Execution -/

/-- A traced outcome: the result (or error) together with the number of
kernel invocations (`_imagingmath.unop`/`binop` calls) it performed. -/
abbrev TraceR := (Except EvalError PyVal) × Nat

/-- Lift an Operand-level operation into a traced outcome: a successful
`apply` invoked its kernel exactly once, a failed one invoked none (both
fix-up and kernel-lookup failures precede the kernel call). -/
def liftApplyR (r : Except EvalError _Operand) : TraceR :=
  match r with
  | .ok o => (.ok (.img o), 1)
  | .error e => (.error e, 0)

/-- The kernel-registry name of a binary operator method. -/
def binOpName (op : BinOp) : String :=
  match op with
  | .add => "add" | .sub => "sub" | .mul => "mul" | .div => "div"
  | .mod => "mod" | .pow => "pow" | .and => "and" | .or => "or"
  | .xor => "xor" | .lshift => "lshift" | .rshift => "rshift"
  | .eq => "eq" | .ne => "ne" | .lt => "lt" | .le => "le"
  | .gt => "gt" | .ge => "ge"

/-- The left-hand dunder method of an Operand for a binary operator:
every one routes through `apply` with `(self, other)` order. -/
def leftMethod (op : BinOp) (x : _Operand) (other : _Operand ⊕ Rat) :
    Except EvalError _Operand :=
  match op with
  | .add => x.addM other
  | .sub => x.subM other
  | .mul => x.mulM other
  | .div => x.divM other
  | .mod => x.modM other
  | .pow => x.powM other
  | .and => x.andM other
  | .or => x.orM other
  | .xor => x.xorM other
  | .lshift => x.lshiftM other
  | .rshift => x.rshiftM other
  | .eq => x.eqM other
  | .ne => x.neM other
  | .lt => x.ltM other
  | .le => x.leM other
  | .gt => x.gtM other
  | .ge => x.geM other

/-- Modelled from the host language semantics: dispatch of
`number <op> operand`.  The number's own method does not handle an Operand,
so the host falls back to the Operand's reflected method: `raddM` and
friends for the arithmetic and bitwise operators that define one, the
mirrored comparison method for comparisons, and — because the source defines
no `__rlshift__`/`__rrshift__` — a host `TypeError` for the two shifts. -/
def reflectedDispatch (op : BinOp) (c : Rat) (x : _Operand) : TraceR :=
  match op with
  | .add => liftApplyR (x.raddM (.inr c))
  | .sub => liftApplyR (x.rsubM (.inr c))
  | .mul => liftApplyR (x.rmulM (.inr c))
  | .div => liftApplyR (x.rdivM (.inr c))
  | .mod => liftApplyR (x.rmodM (.inr c))
  | .pow => liftApplyR (x.rpowM (.inr c))
  | .and => liftApplyR (x.randM (.inr c))
  | .or => liftApplyR (x.rorM (.inr c))
  | .xor => liftApplyR (x.rxorM (.inr c))
  | .lshift => (.error (.typeError "no reflected lshift on Operand"), 0)
  | .rshift => (.error (.typeError "no reflected rshift on Operand"), 0)
  | .eq => liftApplyR (x.eqM (.inr c))
  | .ne => liftApplyR (x.neM (.inr c))
  | .lt => liftApplyR (x.gtM (.inr c))
  | .le => liftApplyR (x.geM (.inr c))
  | .gt => liftApplyR (x.ltM (.inr c))
  | .ge => liftApplyR (x.leM (.inr c))

/-- Modelled from the host language semantics: a binary operator applied to
two plain numbers.  Division and modulo by zero raise; `pow`, the bitwise
family and the shifts on numbers are outside what any evaluated expression
of this development needs and are marked as unmodelled. -/
def numBinOp (op : BinOp) (a b : Rat) : Except EvalError PyVal :=
  match op with
  | .add => .ok (.num (a + b))
  | .sub => .ok (.num (a - b))
  | .mul => .ok (.num (a * b))
  | .div => if b = 0 then .error (.typeError "division by zero") else .ok (.num (a / b))
  | .mod =>
    if b = 0 then .error (.typeError "modulo by zero")
    else .ok (.num (a - b * ((⌊a / b⌋ : Int) : Rat)))
  | .eq => .ok (.boolV (a = b : Bool))
  | .ne => .ok (.boolV (!(a = b : Bool)))
  | .lt => .ok (.boolV (a < b : Bool))
  | .le => .ok (.boolV (a ≤ b : Bool))
  | .gt => .ok (.boolV (b < a : Bool))
  | .ge => .ok (.boolV (b ≤ a : Bool))
  | _ => .error (.notModelled "numeric bitwise operator")

/-- Dispatch of a binary operator over evaluated operands, following the
host's method-resolution order: the left Operand's method when the left
operand is an Operand, the reflected method when only the right one is,
plain arithmetic on two numbers, and a host `TypeError` otherwise. -/
def applyBinOp (op : BinOp) (va vb : PyVal) : TraceR :=
  match va, vb with
  | .img x, .img y => liftApplyR (leftMethod op x (.inl y))
  | .img x, .num c => liftApplyR (leftMethod op x (.inr c))
  | .num c, .img x => reflectedDispatch op c x
  | .num a, .num b => (numBinOp op a b, 0)
  | _, _ => (.error (.typeError "unsupported operand types"), 0)

/-- Dispatch of a unary operator: the Operand methods `negM`/`posM`/`invertM`
on an Operand (note `posM` returns its operand and invokes no kernel), host
arithmetic on numbers (`~` demands an integer), `TypeError` otherwise. -/
def applyUnOp (op : UnOp) (v : PyVal) : TraceR :=
  match op, v with
  | .neg, .img x => liftApplyR x.negM
  | .pos, .img x => (.ok (.img x.posM), 0)
  | .invert, .img x => liftApplyR x.invertM
  | .neg, .num r => (.ok (.num (-r)), 0)
  | .pos, .num r => (.ok (.num r), 0)
  | .invert, .num r =>
    if r.den = 1 then (.ok (.num (-r - 1)), 0)
    else (.error (.typeError "invert of a non-integer"), 0)
  | _, _ => (.error (.typeError "unsupported unary operand type"), 0)

/-- A call argument as an `apply` operand: an Operand or a number. -/
def toOperandArg (v : PyVal) : Option (_Operand ⊕ Rat) :=
  match v with
  | .img o => some (.inl o)
  | .num c => some (.inr c)
  | _ => none

/-- Dispatch of a call: the vocabulary functions `int`, `float`, `equal`,
`notequal`, `min`, `max` and `convert` route to their `imagemath_*`
definitions (conversions invoke no kernel; the binary helpers invoke one on
success); the host builtin `abs` routes to the Operand's `absM` method on an
Operand and to host absolute value on a number; anything else fails at the
host level. -/
def dispatchCall (vf : PyVal) (vs : List PyVal) : TraceR :=
  match vf, vs with
  | .fnV "int", [.img x] => (.ok (.img (imagemath_int x)), 0)
  | .fnV "float", [.img x] => (.ok (.img (imagemath_float x)), 0)
  | .fnV "equal", [.img x, a] =>
    match toOperandArg a with
    | some o => liftApplyR (imagemath_equal x o)
    | none => (.error (.typeError "bad argument to equal"), 0)
  | .fnV "notequal", [.img x, a] =>
    match toOperandArg a with
    | some o => liftApplyR (imagemath_notequal x o)
    | none => (.error (.typeError "bad argument to notequal"), 0)
  | .fnV "min", [.img x, a] =>
    match toOperandArg a with
    | some o => liftApplyR (imagemath_min x o)
    | none => (.error (.typeError "bad argument to min"), 0)
  | .fnV "max", [.img x, a] =>
    match toOperandArg a with
    | some o => liftApplyR (imagemath_max x o)
    | none => (.error (.typeError "bad argument to max"), 0)
  | .fnV "convert", [.img x, .str m] => (.ok (.img (imagemath_convert x m)), 0)
  | .hostFn "abs", [.img x] => liftApplyR x.absM
  | .hostFn "abs", [.num r] => (.ok (.num |r|), 0)
  | .fnV _, _ => (.error (.typeError "bad call arguments"), 0)
  | .hostFn _, _ => (.error (.notModelled "host builtin call"), 0)
  | _, _ => (.error (.typeError "object is not callable"), 0)

mutual
/-- Modelled from the host language semantics of evaluating the compiled
expression against the execution context (source line 272): names resolve
through `resolveExecName`, operators dispatch through the Operand methods
per the host's method-resolution rules, calls dispatch to the vocabulary
and the one reachable host builtin, attribute access reaches the wrapped
image of an Operand; evaluating a lambda body is outside what any claim
exercises and is marked unmodelled.  The trace counts kernel invocations. -/
def evalExpr (ns : Namespace) (e : Expr) : TraceR :=
  match e with
  | .name n =>
    match resolveExecName ns n with
    | some v => (.ok v, 0)
    | none => (.error (.nameError n), 0)
  | .num c => (.ok (.num c), 0)
  | .str s => (.ok (.str s), 0)
  | .binop op a b =>
    match evalExpr ns a with
    | (.error e, k) => (.error e, k)
    | (.ok va, k1) =>
      match evalExpr ns b with
      | (.error e, k2) => (.error e, k1 + k2)
      | (.ok vb, k2) =>
        match applyBinOp op va vb with
        | (r, k3) => (r, k1 + k2 + k3)
  | .unop op a =>
    match evalExpr ns a with
    | (.error e, k) => (.error e, k)
    | (.ok va, k1) =>
      match applyUnOp op va with
      | (r, k2) => (r, k1 + k2)
  | .call f args =>
    match evalExpr ns f with
    | (.error e, k) => (.error e, k)
    | (.ok vf, k1) =>
      match evalArgs ns args with
      | (.error e, k2) => (.error e, k1 + k2)
      | (.ok vs, k2) =>
        match dispatchCall vf vs with
        | (r, k3) => (r, k1 + k2 + k3)
  | .attr e fld =>
    match evalExpr ns e with
    | (.error er, k) => (.error er, k)
    | (.ok v, k) =>
      match v, fld with
      | .img o, "im" => (.ok (.rawImage o.im), k)
      | _, _ => (.error (.attributeError fld), k)
  | .lam _ _ => (.error (.notModelled "lambda value"), 0)
/-- Left-to-right evaluation of an argument list. -/
def evalArgs (ns : Namespace) (es : ExprList) :
    (Except EvalError (List PyVal)) × Nat :=
  match es with
  | .nil => (.ok [], 0)
  | .cons e rest =>
    match evalExpr ns e with
    | (.error er, k) => (.error er, k)
    | (.ok v, k1) =>
      match evalArgs ns rest with
      | (.error er, k2) => (.error er, k1 + k2)
      | (.ok vs, k2) => (.ok (v :: vs), k1 + k2)
end

/-- The unwrap step (source lines 273-276): an Operand result is unwrapped to
its image (`out.im` succeeds); every other result is returned unchanged
(`out.im` raises `AttributeError`). -/
def unwrapResult (v : PyVal) : PyVal :=
  match v with
  | .img o => .rawImage o.im
  | v => v

/-- The full `eval` entry point with a kernel-invocation trace: validate the
binding keys, build the namespace, compile the expression, run the
recursive name scan, execute against the restricted context, and unwrap.
A validation or scan failure aborts before execution with zero kernel
invocations. -/
def evalTrace (e : Expr) (d : List (String × BindVal)) : TraceR :=
  match validateBindings d with
  | some k => (.error (.forbiddenName k), 0)
  | none =>
    let args := buildNamespace d
    match scanCode args (compileExpr e) with
    | some n => (.error (.forbiddenName n), 0)
    | none =>
      match evalExpr args e with
      | (.ok v, k) => (.ok (unwrapResult v), k)
      | (.error er, k) => (.error er, k)

/-- `ImageMath.eval`: the evaluated expression, an image, a number or a
boolean — never an Operand. -/
def eval (e : Expr) (d : List (String × BindVal)) : Except EvalError PyVal :=
  (evalTrace e d).1

/-! ### Concrete test fixtures -/

/-- A concrete 2x2 mode-"I" test image. -/
def testImgI : Image :=
  ⟨"I", (2, 2), fun i j => (i : Rat) + 2 * (j : Rat)⟩

/-- A concrete 3x2 mode-"F" test image. -/
def testImgF : Image :=
  ⟨"F", (3, 2), fun i j => (i : Rat) / 2 + (j : Rat)⟩

/-- A concrete 2x3 mode-"L" test image. -/
def testImgL : Image :=
  ⟨"L", (2, 3), fun i j => ((i + j : Nat) : Rat)⟩

/-- A concrete test image in an arithmetic-incapable mode. -/
def testImgCMYK : Image :=
  ⟨"CMYK", (2, 2), fun _ _ => 0⟩

/-- A concrete Operand wrapping the mode-"I" test image. -/
def testOp : _Operand :=
  ⟨testImgI⟩

/-! ### Supporting lemmas -/

theorem fixup_inl_1L (self o : _Operand) (h : o.im.mode = "1" ∨ o.im.mode = "L") :
    self.fixup (.inl o) = .ok (o.im.convert "I") := by
  obtain ⟨⟨m, s, p⟩⟩ := o
  rcases h with h | h <;> simp_all [_Operand.fixup]

theorem fixup_inl_IF (self o : _Operand) (h : o.im.mode = "I" ∨ o.im.mode = "F") :
    self.fixup (.inl o) = .ok o.im := by
  obtain ⟨⟨m, s, p⟩⟩ := o
  rcases h with h | h <;> simp_all [_Operand.fixup]

theorem fixup_inl_unsupported (self o : _Operand) (h1 : o.im.mode ≠ "1")
    (h2 : o.im.mode ≠ "L") (h3 : o.im.mode ≠ "I") (h4 : o.im.mode ≠ "F") :
    self.fixup (.inl o) = .error (.unsupportedMode o.im.mode) := by
  obtain ⟨⟨m, s, p⟩⟩ := o
  simp_all [_Operand.fixup]

theorem fixup_inr_int (self : _Operand) (c : Rat)
    (h : self.im.mode = "1" ∨ self.im.mode = "L" ∨ self.im.mode = "I") :
    self.fixup (.inr c) = .ok (Image.new "I" self.im.size (some c)) := by
  obtain ⟨⟨m, s, p⟩⟩ := self
  rcases h with h | h | h <;> simp_all [_Operand.fixup]

theorem fixup_inr_float (self : _Operand) (c : Rat) (h1 : self.im.mode ≠ "1")
    (h2 : self.im.mode ≠ "L") (h3 : self.im.mode ≠ "I") :
    self.fixup (.inr c) = .ok (Image.new "F" self.im.size (some c)) := by
  obtain ⟨⟨m, s, p⟩⟩ := self
  simp_all [_Operand.fixup]

theorem fixup_inl_size (self o : _Operand) (i : Image)
    (h : self.fixup (.inl o) = .ok i) : i.size = o.im.size := by
  by_cases hA : o.im.mode = "1" ∨ o.im.mode = "L"
  · rw [fixup_inl_1L self o hA] at h; cases h; rfl
  · by_cases hB : o.im.mode = "I" ∨ o.im.mode = "F"
    · rw [fixup_inl_IF self o hB] at h; cases h; rfl
    · push_neg at hA hB
      rw [fixup_inl_unsupported self o hA.1 hA.2 hB.1 hB.2] at h; cases h

theorem fixup_mode_I_or_F (self : _Operand) (x : _Operand ⊕ Rat) (i : Image)
    (h : self.fixup x = .ok i) : i.mode = "I" ∨ i.mode = "F" := by
  rcases x with o | c
  · by_cases hA : o.im.mode = "1" ∨ o.im.mode = "L"
    · rw [fixup_inl_1L self o hA] at h; cases h; exact Or.inl rfl
    · by_cases hB : o.im.mode = "I" ∨ o.im.mode = "F"
      · rw [fixup_inl_IF self o hB] at h; cases h; exact hB
      · push_neg at hA hB
        rw [fixup_inl_unsupported self o hA.1 hA.2 hB.1 hB.2] at h; cases h
  · by_cases hC : self.im.mode = "1" ∨ self.im.mode = "L" ∨ self.im.mode = "I"
    · rw [fixup_inr_int self c hC] at h; cases h; exact Or.inl rfl
    · push_neg at hC
      rw [fixup_inr_float self c hC.1 hC.2.1 hC.2.2] at h; cases h; exact Or.inr rfl

theorem reconcileModes_fst_mode (a b : Image) :
    (reconcileModes a b).1.mode = if a.mode = b.mode then a.mode else "F" := by
  unfold reconcileModes
  by_cases h : a.mode = b.mode <;> simp [h, Image.convert]
  by_cases hF : a.mode = "F" <;> simp [hF, Image.convert]

theorem reconcileModes_snd_mode (a b : Image) :
    (reconcileModes a b).2.mode = if a.mode = b.mode then b.mode else "F" := by
  unfold reconcileModes
  by_cases h : a.mode = b.mode <;> simp [h, Image.convert]
  by_cases hF : b.mode = "F" <;> simp [hF, Image.convert]

theorem reconcileModes_fst_size (a b : Image) :
    (reconcileModes a b).1.size = a.size := by
  unfold reconcileModes
  by_cases h : a.mode = b.mode <;> simp [h, Image.convert]
  by_cases hF : a.mode = "F" <;> simp [hF, Image.convert]

theorem reconcileModes_snd_size (a b : Image) :
    (reconcileModes a b).2.size = b.size := by
  unfold reconcileModes
  by_cases h : a.mode = b.mode <;> simp [h, Image.convert]
  by_cases hF : b.mode = "F" <;> simp [hF, Image.convert]

theorem reconcileSizes_fst_size (a b : Image) :
    (reconcileSizes a b).1.size = (min a.size.1 b.size.1, min a.size.2 b.size.2) := by
  unfold reconcileSizes
  by_cases h : a.size = b.size
  · simp [h]
  · have hb : (a.size != b.size) = true := by simp [h]
    simp only [hb, if_true]
    by_cases h2 : a.size = (min a.size.1 b.size.1, min a.size.2 b.size.2)
    · have hc : (a.size != (min a.size.1 b.size.1, min a.size.2 b.size.2)) = false := by
        simpa using h2
      simp only [hc, Bool.false_eq_true, if_false]
      exact h2
    · have hc : (a.size != (min a.size.1 b.size.1, min a.size.2 b.size.2)) = true := by
        simpa using h2
      simp only [hc, if_true]
      simp [Image.crop]

theorem reconcileSizes_snd_size (a b : Image) :
    (reconcileSizes a b).2.size = (min a.size.1 b.size.1, min a.size.2 b.size.2) := by
  unfold reconcileSizes
  by_cases h : a.size = b.size
  · simp [h]
  · have hb : (a.size != b.size) = true := by simp [h]
    simp only [hb, if_true]
    by_cases h2 : b.size = (min a.size.1 b.size.1, min a.size.2 b.size.2)
    · have hc : (b.size != (min a.size.1 b.size.1, min a.size.2 b.size.2)) = false := by
        simpa using h2
      simp only [hc, Bool.false_eq_true, if_false]
      exact h2
    · have hc : (b.size != (min a.size.1 b.size.1, min a.size.2 b.size.2)) = true := by
        simpa using h2
      simp only [hc, if_true]
      simp [Image.crop]

theorem reconcileSizes_fst_mode (a b : Image) :
    (reconcileSizes a b).1.mode = a.mode := by
  unfold reconcileSizes
  by_cases h : a.size = b.size <;> simp [h, Image.crop]
  split <;> rfl

theorem reconcileSizes_snd_mode (a b : Image) :
    (reconcileSizes a b).2.mode = b.mode := by
  unfold reconcileSizes
  by_cases h : a.size = b.size <;> simp [h, Image.crop]
  split <;> rfl

theorem apply_unary_eq (self : _Operand) (op : String) (x : _Operand ⊕ Rat)
    (m : Option String) (i1 : Image) (h1 : self.fixup x = .ok i1) :
    self.apply op x none m =
      if kernelDefined (op ++ "_" ++ i1.mode) then
        .ok ⟨{ Image.new (m.getD i1.mode) i1.size none with
               pix := fun i j => unopKernel op (i1.pix i j) }⟩
      else .error (.badOperandType op) := by
  simp only [_Operand.apply, h1]

theorem apply_binary_eq (self : _Operand) (op : String) (x y : _Operand ⊕ Rat)
    (m : Option String) (i1 i2 j1 j2 k1 k2 : Image)
    (h1 : self.fixup x = .ok i1) (h2 : self.fixup y = .ok i2)
    (hm : reconcileModes i1 i2 = (j1, j2)) (hs : reconcileSizes j1 j2 = (k1, k2)) :
    self.apply op x (some y) m =
      if kernelDefined (op ++ "_" ++ k1.mode) then
        .ok ⟨{ Image.new (m.getD k1.mode) k1.size none with
               pix := fun i j => binopKernel op (k1.pix i j) (k2.pix i j) }⟩
      else .error (.badOperandType op) := by
  simp only [_Operand.apply, h1, h2, hm, hs]

theorem firstDisallowed_isSome (args : Namespace) (names : List String) (n : String)
    (hn : n ∈ names) (h1 : nsLookup args n = none) (h2 : n ≠ "abs") :
    (firstDisallowed args names).isSome := by
  induction names with
  | nil => cases hn
  | cons m rest ih =>
    unfold firstDisallowed
    by_cases hbad : (!(nsLookup args m).isSome && m != "abs") = true
    · simp only [hbad, if_true, Option.isSome_some]
    · simp only [hbad, Bool.false_eq_true, if_false]
      rcases List.mem_cons.mp hn with rfl | hmem
      · exact absurd (by simp [h1, h2]) hbad
      · exact ih hmem

mutual
theorem scanCode_bad (args : Namespace) (c : Code) (n : String)
    (hn : n ∈ codeNames c) (h1 : nsLookup args n = none) (h2 : n ≠ "abs") :
    (scanCode args c).isSome := by
  match c with
  | .mk ns cs =>
    unfold scanCode
    rcases List.mem_append.mp (by simpa [codeNames] using hn) with hmem | hmem
    · have hb := scanCodes_bad args cs n hmem h1 h2
      rcases hs : scanCodes args cs with _ | m
      · rw [hs] at hb; cases hb
      · simp
    · rcases hs : scanCodes args cs with _ | m
      · simpa using firstDisallowed_isSome args ns n hmem h1 h2
      · simp
theorem scanCodes_bad (args : Namespace) (cs : CodeList) (n : String)
    (hn : n ∈ codeListNames cs) (h1 : nsLookup args n = none) (h2 : n ≠ "abs") :
    (scanCodes args cs).isSome := by
  match cs with
  | .nil => cases hn
  | .cons c rest =>
    unfold scanCodes
    rcases List.mem_append.mp (by simpa [codeListNames] using hn) with hmem | hmem
    · have hb := scanCode_bad args c n hmem h1 h2
      rcases hs : scanCode args c with _ | m
      · rw [hs] at hb; cases hb
      · simp
    · rcases hs : scanCode args c with _ | m
      · simpa using scanCodes_bad args rest n hmem h1 h2
      · simp
end

theorem validateBindings_isSome (d : List (String × BindVal)) (k : String) (v : BindVal)
    (hk : (k, v) ∈ d)
    (hbad : hasDoubleUnderscore k = true ∨ pythonBuiltins.contains k = true) :
    ∃ m, validateBindings d = some m := by
  induction d with
  | nil => cases hk
  | cons p rest ih =>
    obtain ⟨k1, v1⟩ := p
    unfold validateBindings
    by_cases hb : (hasDoubleUnderscore k1 || pythonBuiltins.contains k1) = true
    · exact ⟨k1, by simp only [hb, if_true]⟩
    · simp only [hb, Bool.false_eq_true, if_false]
      rcases List.mem_cons.mp hk with heq | hmem
      · exfalso
        apply hb
        have hk1 : k1 = k := (Prod.mk.injEq _ _ _ _ |>.mp heq.symm).1
        rcases hbad with h | h
        · simp only [hk1, h, Bool.true_or]
        · simp only [hk1, h, Bool.or_true]
      · exact ih hmem

/-- The final (execute-and-unwrap) stage of evalTrace. -/
def finishTrace (t : TraceR) : TraceR :=
  match t with
  | (.ok v, k) => (.ok (unwrapResult v), k)
  | t => t

theorem evalTrace_eq_finish (e : Expr) (d : List (String × BindVal))
    (hv : validateBindings d = none)
    (hs : scanCode (buildNamespace d) (compileExpr e) = none) :
    evalTrace e d = finishTrace (evalExpr (buildNamespace d) e) := by
  unfold evalTrace
  simp only [hv, hs]
  rcases hE : evalExpr (buildNamespace d) e with ⟨r, k⟩
  cases r <;> simp [finishTrace]

theorem evalExpr_binop (ns : Namespace) (op : BinOp) (ea eb : Expr)
    (va vb : PyVal) (ka kb : Nat) (r : Except EvalError PyVal) (k3 : Nat)
    (ha : evalExpr ns ea = (.ok va, ka)) (hb : evalExpr ns eb = (.ok vb, kb))
    (hA : applyBinOp op va vb = (r, k3)) :
    evalExpr ns (.binop op ea eb) = (r, ka + kb + k3) := by
  unfold evalExpr
  simp only [ha, hb, hA]

/-- Whether an evaluator outcome is an (unexpected) bare Operand. -/
def resultIsOperand (r : Except EvalError PyVal) : Bool :=
  match r with
  | .ok (.img _) => true
  | _ => false

/-- C1 (counterexample): the execution context does not expose only `abs`:
because the sandbox dictionary is stored under the key `"__builtins"` rather
than the host's reserved double-underscore key (which is absent), the host
injects its full builtins namespace, and the builtin `len` — which is not
`abs` and is not a key of the constructed namespace — resolves in the
execution context of an evaluation with no bindings. -/
theorem c1_counterexample :
    resolveExecName (buildNamespace []) "len" = some (.hostFn "len")
    ∧ pythonBuiltins.contains "len" = true
    ∧ (("len" : String) == "abs") = false
    ∧ nsLookup (buildNamespace []) "len" = none
    ∧ nsLookup execGlobalsDict "__builtins__" = none :=
  ⟨rfl, rfl, rfl, rfl, rfl⟩

/-- C1 (amended): for every evaluation whose bindings pass validation and
whose compiled expression passes the name scan, every name the expression
references resolves, in the execution context, either to its value in the
constructed namespace or — for the single exception `abs` — to the host
builtin `abs`; no other name of the host builtin namespace is referenced
during execution. -/
theorem c1_execution_reachability (d : List (String × BindVal)) (e : Expr)
    (_hv : validateBindings d = none)
    (hs : scanCode (buildNamespace d) (compileExpr e) = none) :
    ∀ n ∈ codeNames (compileExpr e),
      (∃ v, nsLookup (buildNamespace d) n = some v
        ∧ resolveExecName (buildNamespace d) n = some v)
      ∨ (n = "abs" ∧ resolveExecName (buildNamespace d) n = some (.hostFn "abs")) := by
  intro n hn
  rcases hL : nsLookup (buildNamespace d) n with _ | v
  · right
    by_cases habs : n = "abs"
    · subst habs
      refine ⟨rfl, ?_⟩
      unfold resolveExecName
      rw [hL]
      rfl
    · exfalso
      have hb := scanCode_bad (buildNamespace d) (compileExpr e) n hn hL habs
      rw [hs] at hb
      cases hb
  · left
    refine ⟨v, rfl, ?_⟩
    unfold resolveExecName
    rw [hL]

theorem c1_execution_reachability_witness :
    validateBindings [("x", BindVal.image testImgI)] = none
    ∧ scanCode (buildNamespace [("x", BindVal.image testImgI)])
        (compileExpr (.call (.name "abs") (.cons (.name "x") .nil))) = none
    ∧ ∀ n ∈ codeNames (compileExpr (.call (.name "abs") (.cons (.name "x") .nil))),
        (∃ v, nsLookup (buildNamespace [("x", BindVal.image testImgI)]) n = some v
          ∧ resolveExecName (buildNamespace [("x", BindVal.image testImgI)]) n = some v)
        ∨ (n = "abs"
          ∧ resolveExecName (buildNamespace [("x", BindVal.image testImgI)]) n
              = some (.hostFn "abs")) :=
  ⟨rfl, rfl, c1_execution_reachability _ _ rfl rfl⟩

/-- C2: any expression that references — at any nesting depth, nested code
objects included — an identifier that is neither a key of the constructed
namespace nor `abs` makes `eval` fail with the forbidden-name error before
execution, with zero kernel invocations. -/
theorem c2_scan_blocks_execution (e : Expr) (d : List (String × BindVal)) (n : String)
    (hn : n ∈ codeNames (compileExpr e))
    (h1 : nsLookup (buildNamespace d) n = none) (h2 : n ≠ "abs") :
    ∃ m, evalTrace e d = (.error (.forbiddenName m), 0) := by
  rcases hv : validateBindings d with _ | k
  · have hb := scanCode_bad (buildNamespace d) (compileExpr e) n hn h1 h2
    rcases hs : scanCode (buildNamespace d) (compileExpr e) with _ | m
    · rw [hs] at hb; cases hb
    · exact ⟨m, by unfold evalTrace; simp only [hv, hs]⟩
  · exact ⟨k, by unfold evalTrace; simp only [hv]⟩

theorem c2_scan_blocks_execution_witness :
    ("q" ∈ codeNames (compileExpr
        (.call (.lam ["t"] (.binop .add (.name "t") (.name "q")))
          (.cons (.num 1) .nil))))
    ∧ nsLookup (buildNamespace [("x", BindVal.image testImgI)]) "q" = none
    ∧ ("q" : String) ≠ "abs"
    ∧ ∃ m, evalTrace
        (.call (.lam ["t"] (.binop .add (.name "t") (.name "q")))
          (.cons (.num 1) .nil))
        [("x", BindVal.image testImgI)] = (.error (.forbiddenName m), 0) :=
  ⟨by decide, rfl, by decide,
    c2_scan_blocks_execution _ _ "q" (by decide) rfl (by decide)⟩

/-- C3: a bindings mapping containing a key with a double-underscore
substring, or a key that is a host builtin name, makes `eval` fail with the
forbidden-name error for every expression, with no evaluation performed
(zero kernel invocations and no result). -/
theorem c3_bad_binding_rejected (e : Expr) (d : List (String × BindVal))
    (k : String) (v : BindVal) (hk : (k, v) ∈ d)
    (hbad : hasDoubleUnderscore k = true ∨ pythonBuiltins.contains k = true) :
    ∃ m, evalTrace e d = (.error (.forbiddenName m), 0) := by
  obtain ⟨m, hm⟩ := validateBindings_isSome d k v hk hbad
  exact ⟨m, by unfold evalTrace; simp only [hm]⟩

theorem c3_bad_binding_rejected_witness :
    (("x__y", BindVal.image testImgI) ∈ [("x__y", BindVal.image testImgI)])
    ∧ hasDoubleUnderscore "x__y" = true
    ∧ (∃ m, evalTrace (.name "x__y") [("x__y", BindVal.image testImgI)]
        = (.error (.forbiddenName m), 0))
    ∧ (("len", BindVal.num 3) ∈ [("len", BindVal.num 3)])
    ∧ pythonBuiltins.contains "len" = true
    ∧ ∃ m, evalTrace (.name "len") [("len", BindVal.num 3)]
        = (.error (.forbiddenName m), 0) :=
  ⟨List.mem_singleton.mpr rfl, rfl,
    c3_bad_binding_rejected _ _ "x__y" (BindVal.image testImgI)
      (List.mem_singleton.mpr rfl) (Or.inl rfl),
    List.mem_singleton.mpr rfl, rfl,
    c3_bad_binding_rejected _ _ "len" (BindVal.num 3)
      (List.mem_singleton.mpr rfl) (Or.inr rfl)⟩

/-- C7: evaluating the bare identifier expression over a binding of an image
returns exactly that image, unchanged and unwrapped; and no evaluation ever
returns a bare Operand. -/
theorem c7_identity_unwrap :
    (∀ im : Image, evalTrace (.name "x") [("x", .image im)] = (.ok (.rawImage im), 0))
    ∧ (∀ (e : Expr) (d : List (String × BindVal)),
        resultIsOperand (evalTrace e d).1 = false) := by
  constructor
  · intro im
    rfl
  · intro e d
    rcases hv : validateBindings d with _ | k
    · rcases hs : scanCode (buildNamespace d) (compileExpr e) with _ | n
      · rcases hE : evalExpr (buildNamespace d) e with ⟨r, k⟩
        cases r with
        | ok v =>
          have hT : evalTrace e d = (.ok (unwrapResult v), k) := by
            unfold evalTrace
            simp only [hv, hs, hE]
          rw [hT]
          cases v <;> rfl
        | error er =>
          have hT : evalTrace e d = (.error er, k) := by
            unfold evalTrace
            simp only [hv, hs, hE]
          rw [hT]
          rfl
      · have hT : evalTrace e d = (.error (.forbiddenName n), 0) := by
          unfold evalTrace
          simp only [hv, hs]
        rw [hT]
        rfl
    · have hT : evalTrace e d = (.error (.forbiddenName k), 0) := by
        unfold evalTrace
        simp only [hv]
      rw [hT]
      rfl

/-- C10: a binding key that is a vocabulary name and also a host builtin
(`int`, `float`, `min`, `max`) is rejected with the forbidden-name error,
while a binding key that is a vocabulary name but not a host builtin
(`equal`, `notequal`, `convert`) passes validation and silently replaces the
fixed-vocabulary helper of that name in the constructed namespace. -/
theorem c10_vocabulary_shadowing (im : Image) (k : String) (e : Expr) :
    (k ∈ (["int", "float", "min", "max"] : List String) →
      pythonBuiltins.contains k = true
      ∧ evalTrace e [(k, .image im)] = (.error (.forbiddenName k), 0))
    ∧ (k ∈ (["equal", "notequal", "convert"] : List String) →
      validateBindings [(k, .image im)] = none
      ∧ nsLookup opsList k = some (.fnV k)
      ∧ nsLookup (buildNamespace [(k, .image im)]) k = some (.img ⟨im⟩)) := by
  constructor
  · intro hk
    simp only [List.mem_cons, List.mem_singleton, List.not_mem_nil, or_false] at hk
    rcases hk with rfl | rfl | rfl | rfl <;> exact ⟨rfl, rfl⟩
  · intro hk
    simp only [List.mem_cons, List.mem_singleton, List.not_mem_nil, or_false] at hk
    rcases hk with rfl | rfl | rfl <;> exact ⟨rfl, rfl, rfl⟩

theorem c10_vocabulary_shadowing_witness :
    (("min" : String) ∈ (["int", "float", "min", "max"] : List String)
      ∧ evalTrace (.name "x") [("min", .image testImgI)]
          = (.error (.forbiddenName "min"), 0))
    ∧ (("convert" : String) ∈ (["equal", "notequal", "convert"] : List String)
      ∧ nsLookup (buildNamespace [("convert", .image testImgI)]) "convert"
          = some (.img ⟨testImgI⟩)) :=
  ⟨⟨by decide, ((c10_vocabulary_shadowing testImgI "min" (.name "x")).1 (by decide)).2⟩,
   ⟨by decide,
     (((c10_vocabulary_shadowing testImgI "convert" (.name "x")).2 (by decide)).2).2⟩⟩

theorem fixup_inl_supported (self o : _Operand)
    (h : o.im.mode = "1" ∨ o.im.mode = "L" ∨ o.im.mode = "I" ∨ o.im.mode = "F") :
    ∃ i, self.fixup (.inl o) = .ok i ∧ (i.mode = "I" ∨ i.mode = "F")
      ∧ i.size = o.im.size := by
  rcases h with h | h | h | h
  · exact ⟨o.im.convert "I", fixup_inl_1L self o (Or.inl h), Or.inl rfl, rfl⟩
  · exact ⟨o.im.convert "I", fixup_inl_1L self o (Or.inr h), Or.inl rfl, rfl⟩
  · exact ⟨o.im, fixup_inl_IF self o (Or.inl h), Or.inl h, rfl⟩
  · exact ⟨o.im, fixup_inl_IF self o (Or.inr h), Or.inr h, rfl⟩

theorem apply_binary_ok (self : _Operand) (op : String) (x y : _Operand ⊕ Rat)
    (i1 i2 : Image) (h1 : self.fixup x = .ok i1) (h2 : self.fixup y = .ok i2)
    (hker : kernelDefined (op ++ "_" ++ (reconcileModes i1 i2).1.mode) = true) :
    ∃ r : _Operand, self.apply op x (some y) none = .ok r
      ∧ r.im.size = (min i1.size.1 i2.size.1, min i1.size.2 i2.size.2)
      ∧ r.im.mode = (reconcileModes i1 i2).1.mode := by
  rcases hm : reconcileModes i1 i2 with ⟨j1, j2⟩
  rcases hsz : reconcileSizes j1 j2 with ⟨k1, k2⟩
  have hk1m : k1.mode = j1.mode := by
    have := reconcileSizes_fst_mode j1 j2
    rw [hsz] at this
    exact this
  have hj1m : j1.mode = (reconcileModes i1 i2).1.mode := by rw [hm]
  have hker2 : kernelDefined (op ++ "_" ++ k1.mode) = true := by
    rw [hk1m, hj1m]
    exact hker
  have happly := apply_binary_eq self op x y none i1 i2 j1 j2 k1 k2 h1 h2 hm hsz
  rw [if_pos hker2] at happly
  refine ⟨_, happly, ?_, ?_⟩
  · show k1.size = _
    have hs1 := reconcileSizes_fst_size j1 j2
    rw [hsz] at hs1
    have hj1s : j1.size = i1.size := by
      have := reconcileModes_fst_size i1 i2
      rw [hm] at this
      exact this
    have hj2s : j2.size = i2.size := by
      have := reconcileModes_snd_size i1 i2
      rw [hm] at this
      exact this
    rw [hs1, hj1s, hj2s]
  · show k1.mode = _
    rw [hk1m, hj1m]

/-- C4: case-by-case behaviour of operand normalization (`__fixup`):
modes "1"/"L" are promoted to mode "I" keeping the size, modes "I"/"F" pass
through unchanged, any other Operand mode fails with the unsupported-mode
error, and a bare numeric constant is materialized as a constant-filled
image sized to the reference operand, in mode "I" when the reference mode is
"1"/"L"/"I" and in mode "F" otherwise. -/
theorem c4_fixup_cases (self o : _Operand) (c : Rat) :
    ((o.im.mode = "1" ∨ o.im.mode = "L") →
      self.fixup (.inl o) = .ok (o.im.convert "I")
      ∧ (o.im.convert "I").mode = "I"
      ∧ (o.im.convert "I").size = o.im.size)
    ∧ ((o.im.mode = "I" ∨ o.im.mode = "F") → self.fixup (.inl o) = .ok o.im)
    ∧ (o.im.mode ≠ "1" → o.im.mode ≠ "L" → o.im.mode ≠ "I" → o.im.mode ≠ "F" →
      self.fixup (.inl o) = .error (.unsupportedMode o.im.mode))
    ∧ ((self.im.mode = "1" ∨ self.im.mode = "L" ∨ self.im.mode = "I") →
      self.fixup (.inr c) = .ok (Image.new "I" self.im.size (some c))
      ∧ (Image.new "I" self.im.size (some c)).mode = "I"
      ∧ (Image.new "I" self.im.size (some c)).size = self.im.size)
    ∧ (self.im.mode ≠ "1" → self.im.mode ≠ "L" → self.im.mode ≠ "I" →
      self.fixup (.inr c) = .ok (Image.new "F" self.im.size (some c))
      ∧ (Image.new "F" self.im.size (some c)).mode = "F"
      ∧ (Image.new "F" self.im.size (some c)).size = self.im.size) := by
  refine ⟨?_, ?_, ?_, ?_, ?_⟩
  · intro h
    exact ⟨fixup_inl_1L self o h, rfl, rfl⟩
  · exact fixup_inl_IF self o
  · exact fixup_inl_unsupported self o
  · intro h
    exact ⟨fixup_inr_int self c h, rfl, rfl⟩
  · intro h1 h2 h3
    exact ⟨fixup_inr_float self c h1 h2 h3, rfl, rfl⟩

theorem c4_fixup_cases_witness :
    testOp.fixup (.inl ⟨testImgL⟩) = .ok (testImgL.convert "I")
    ∧ testOp.fixup (.inl ⟨testImgF⟩) = .ok testImgF
    ∧ testOp.fixup (.inl ⟨testImgCMYK⟩) = .error (.unsupportedMode "CMYK")
    ∧ testOp.fixup (.inr 5) = .ok (Image.new "I" testImgI.size (some 5))
    ∧ _Operand.fixup ⟨testImgF⟩ (.inr 5) = .ok (Image.new "F" testImgF.size (some 5)) :=
  ⟨((c4_fixup_cases testOp ⟨testImgL⟩ 5).1 (Or.inr rfl)).1,
   (c4_fixup_cases testOp ⟨testImgF⟩ 5).2.1 (Or.inr rfl),
   (c4_fixup_cases testOp ⟨testImgCMYK⟩ 5).2.2.1
     (by decide) (by decide) (by decide) (by decide),
   ((c4_fixup_cases testOp testOp 5).2.2.2.1 (Or.inr (Or.inr rfl))).1,
   ((c4_fixup_cases ⟨testImgF⟩ testOp 5).2.2.2.2 (by decide) (by decide) (by decide)).1⟩

/-- C5: when the two normalized operands of a binary operation have
different modes, mode reconciliation converts both to floating point, a
successful `apply` with no explicit output mode produces a mode-"F" result,
and at the evaluator level `a + b` over a mode-"I" and a mode-"F" image
produces a floating-point image, never a 32-bit-integer one. -/
theorem c5_mixed_mode_float :
    (∀ i1 i2 : Image, i1.mode ≠ i2.mode →
      (reconcileModes i1 i2).1.mode = "F" ∧ (reconcileModes i1 i2).2.mode = "F")
    ∧ (∀ (self : _Operand) (op : String) (x y : _Operand ⊕ Rat) (i1 i2 : Image)
        (r : _Operand),
        self.fixup x = .ok i1 → self.fixup y = .ok i2 → i1.mode ≠ i2.mode →
        self.apply op x (some y) none = .ok r → r.im.mode = "F")
    ∧ (∀ a b : Image, a.mode = "I" → b.mode = "F" →
        ∃ out : Image,
          evalTrace (.binop .add (.name "a") (.name "b"))
            [("a", .image a), ("b", .image b)] = (.ok (.rawImage out), 1)
          ∧ out.mode = "F") := by
  refine ⟨?_, ?_, ?_⟩
  · intro i1 i2 h
    rw [reconcileModes_fst_mode, reconcileModes_snd_mode]
    simp [h]
  · intro self op x y i1 i2 r hx hy hne happly
    rcases hm : reconcileModes i1 i2 with ⟨j1, j2⟩
    rcases hsz : reconcileSizes j1 j2 with ⟨k1, k2⟩
    have hj1 : j1.mode = "F" := by
      have := reconcileModes_fst_mode i1 i2
      rw [hm, if_neg hne] at this
      exact this
    have hk1 : k1.mode = "F" := by
      have := reconcileSizes_fst_mode j1 j2
      rw [hsz] at this
      rw [this, hj1]
    rw [apply_binary_eq self op x y none i1 i2 j1 j2 k1 k2 hx hy hm hsz] at happly
    split at happly
    · cases happly
      exact hk1
    · cases happly
  · intro a b ha hb
    have h1 : _Operand.fixup ⟨a⟩ (.inl ⟨a⟩) = .ok a := fixup_inl_IF ⟨a⟩ ⟨a⟩ (Or.inl ha)
    have h2 : _Operand.fixup ⟨a⟩ (.inl ⟨b⟩) = .ok b := fixup_inl_IF ⟨a⟩ ⟨b⟩ (Or.inr hb)
    have hne : a.mode ≠ b.mode := by rw [ha, hb]; decide
    have hker : kernelDefined ("add" ++ "_" ++ (reconcileModes a b).1.mode) = true := by
      rw [reconcileModes_fst_mode, if_neg hne]
      rfl
    obtain ⟨r, happly, hsize, hmode⟩ := apply_binary_ok ⟨a⟩ "add" (.inl ⟨a⟩) (.inl ⟨b⟩)
      a b h1 h2 hker
    have hA : applyBinOp .add (.img ⟨a⟩) (.img ⟨b⟩) = (.ok (.img r), 1) := by
      have base : applyBinOp .add (.img ⟨a⟩) (.img ⟨b⟩)
          = liftApplyR (_Operand.apply ⟨a⟩ "add" (.inl (⟨a⟩ : _Operand))
              (some (.inl (⟨b⟩ : _Operand))) none) := rfl
      rw [base, happly]
      rfl
    refine ⟨r.im, ?_, ?_⟩
    · rw [evalTrace_eq_finish (.binop .add (.name "a") (.name "b"))
          [("a", .image a), ("b", .image b)] rfl rfl,
        evalExpr_binop (buildNamespace [("a", .image a), ("b", .image b)])
          .add (.name "a") (.name "b") (.img ⟨a⟩) (.img ⟨b⟩)
          0 0 (.ok (.img r)) 1 rfl rfl hA]
      rfl
    · rw [hmode, reconcileModes_fst_mode, if_neg hne]

theorem c5_mixed_mode_float_witness :
    (testImgI.mode ≠ testImgF.mode
      ∧ (reconcileModes testImgI testImgF).1.mode = "F")
    ∧ (testImgI.mode = "I" ∧ testImgF.mode = "F"
      ∧ ∃ out : Image,
          evalTrace (.binop .add (.name "a") (.name "b"))
            [("a", .image testImgI), ("b", .image testImgF)]
            = (.ok (.rawImage out), 1)
          ∧ out.mode = "F") :=
  ⟨⟨by decide, (c5_mixed_mode_float.1 testImgI testImgF (by decide)).1⟩,
   ⟨rfl, rfl, c5_mixed_mode_float.2.2 testImgI testImgF rfl rfl⟩⟩

/-- C6: a binary operation on operands of differing sizes crops both,
top-left anchored, to the element-wise minimum size, raises no error for the
mismatch (the operation succeeds whenever the kernel for the reconciled mode
exists), and its result has exactly that element-wise minimum size; at the
evaluator level `a + b` over two images of any supported modes succeeds with
result size the element-wise minimum of the two input sizes. -/
theorem c6_size_reconciliation :
    (∀ a b : Image,
      (reconcileSizes a b).1.size = (min a.size.1 b.size.1, min a.size.2 b.size.2)
      ∧ (reconcileSizes a b).2.size = (min a.size.1 b.size.1, min a.size.2 b.size.2))
    ∧ (∀ (self : _Operand) (op : String) (x y : _Operand ⊕ Rat) (i1 i2 : Image),
        self.fixup x = .ok i1 → self.fixup y = .ok i2 →
        kernelDefined (op ++ "_" ++ (reconcileModes i1 i2).1.mode) = true →
        ∃ r : _Operand, self.apply op x (some y) none = .ok r
          ∧ r.im.size = (min i1.size.1 i2.size.1, min i1.size.2 i2.size.2))
    ∧ (∀ a b : Image,
        (a.mode = "1" ∨ a.mode = "L" ∨ a.mode = "I" ∨ a.mode = "F") →
        (b.mode = "1" ∨ b.mode = "L" ∨ b.mode = "I" ∨ b.mode = "F") →
        ∃ out : Image,
          evalTrace (.binop .add (.name "a") (.name "b"))
            [("a", .image a), ("b", .image b)] = (.ok (.rawImage out), 1)
          ∧ out.size = (min a.size.1 b.size.1, min a.size.2 b.size.2)) := by
  refine ⟨?_, ?_, ?_⟩
  · intro a b
    exact ⟨reconcileSizes_fst_size a b, reconcileSizes_snd_size a b⟩
  · intro self op x y i1 i2 h1 h2 hker
    obtain ⟨r, happly, hsize, hmode⟩ := apply_binary_ok self op x y i1 i2 h1 h2 hker
    exact ⟨r, happly, hsize⟩
  · intro a b ha hb
    obtain ⟨i1, h1, hm1, hs1⟩ := fixup_inl_supported ⟨a⟩ ⟨a⟩ ha
    obtain ⟨i2, h2, hm2, hs2⟩ := fixup_inl_supported ⟨a⟩ ⟨b⟩ hb
    have hker : kernelDefined ("add" ++ "_" ++ (reconcileModes i1 i2).1.mode) = true := by
      rw [reconcileModes_fst_mode]
      by_cases he : i1.mode = i2.mode
      · rw [if_pos he]
        rcases hm1 with h | h <;> rw [h] <;> rfl
      · rw [if_neg he]
        rfl
    obtain ⟨r, happly, hsize, hmode⟩ := apply_binary_ok ⟨a⟩ "add" (.inl ⟨a⟩) (.inl ⟨b⟩)
      i1 i2 h1 h2 hker
    have hA : applyBinOp .add (.img ⟨a⟩) (.img ⟨b⟩) = (.ok (.img r), 1) := by
      have base : applyBinOp .add (.img ⟨a⟩) (.img ⟨b⟩)
          = liftApplyR (_Operand.apply ⟨a⟩ "add" (.inl (⟨a⟩ : _Operand))
              (some (.inl (⟨b⟩ : _Operand))) none) := rfl
      rw [base, happly]
      rfl
    refine ⟨r.im, ?_, ?_⟩
    · rw [evalTrace_eq_finish (.binop .add (.name "a") (.name "b"))
          [("a", .image a), ("b", .image b)] rfl rfl,
        evalExpr_binop (buildNamespace [("a", .image a), ("b", .image b)])
          .add (.name "a") (.name "b") (.img ⟨a⟩) (.img ⟨b⟩)
          0 0 (.ok (.img r)) 1 rfl rfl hA]
      rfl
    · rw [hsize, hs1, hs2]

theorem c6_size_reconciliation_witness :
    (testImgI.mode = "1" ∨ testImgI.mode = "L" ∨ testImgI.mode = "I"
        ∨ testImgI.mode = "F")
    ∧ (testImgF.mode = "1" ∨ testImgF.mode = "L" ∨ testImgF.mode = "I"
        ∨ testImgF.mode = "F")
    ∧ ∃ out : Image,
        evalTrace (.binop .add (.name "a") (.name "b"))
          [("a", .image testImgI), ("b", .image testImgF)]
          = (.ok (.rawImage out), 1)
        ∧ out.size = (min testImgI.size.1 testImgF.size.1,
            min testImgI.size.2 testImgF.size.2) :=
  ⟨by decide, by decide,
    c6_size_reconciliation.2.2 testImgI testImgF (by decide) (by decide)⟩

theorem Image.extEq (a b : Image) (hm : a.mode = b.mode) (hs : a.size = b.size)
    (hp : ∀ i j, a.pix i j = b.pix i j) : a = b := by
  cases a
  cases b
  simp only [Image.mk.injEq]
  refine ⟨hm, hs, ?_⟩
  funext i j
  exact hp i j

theorem reconcileModes_of_eq (a b : Image) (h : a.mode = b.mode) :
    reconcileModes a b = (a, b) := by
  unfold reconcileModes
  simp [h]

theorem reconcileSizes_of_eq (a b : Image) (h : a.size = b.size) :
    reconcileSizes a b = (a, b) := by
  unfold reconcileSizes
  simp [h]

theorem apply_err_fst (self : _Operand) (op : String) (x : _Operand ⊕ Rat)
    (im2 : Option (_Operand ⊕ Rat)) (m : Option String) (er : EvalError)
    (h : self.fixup x = .error er) : self.apply op x im2 m = .error er := by
  simp only [_Operand.apply, h]

theorem apply_err_snd (self : _Operand) (op : String) (x y : _Operand ⊕ Rat)
    (m : Option String) (i1 : Image) (er : EvalError)
    (h1 : self.fixup x = .ok i1) (h2 : self.fixup y = .error er) :
    self.apply op x (some y) m = .error er := by
  simp only [_Operand.apply, h1, h2]

theorem binopKernel_add (a b : Rat) : binopKernel "add" a b = a + b := rfl

theorem add_apply_comm_core (x : _Operand) (c : Rat) (i1 K : Image)
    (hxfix : x.fixup (.inl x) = .ok i1) (hcfix : x.fixup (.inr c) = .ok K)
    (hmode : i1.mode = K.mode) (hsize : i1.size = K.size)
    (hKpix : ∀ i j, K.pix i j = c)
    (hker : kernelDefined ("add" ++ "_" ++ i1.mode) = true) :
    x.apply "add" (.inl x) (some (.inr c)) none
      = x.apply "add" (.inr c) (some (.inl x)) none := by
  have hmL := reconcileModes_of_eq i1 K hmode
  have hmR := reconcileModes_of_eq K i1 hmode.symm
  have hsL := reconcileSizes_of_eq i1 K hsize
  have hsR := reconcileSizes_of_eq K i1 hsize.symm
  rw [apply_binary_eq x "add" (.inl x) (.inr c) none i1 K i1 K i1 K hxfix hcfix hmL hsL,
      apply_binary_eq x "add" (.inr c) (.inl x) none K i1 K i1 K i1 hcfix hxfix hmR hsR]
  have hkerK : kernelDefined ("add" ++ "_" ++ K.mode) = true := by
    rw [← hmode]
    exact hker
  rw [if_pos hker, if_pos hkerK]
  have himg : ({ Image.new (Option.getD none i1.mode) i1.size none with
        pix := fun i j => binopKernel "add" (i1.pix i j) (K.pix i j) } : Image)
      = { Image.new (Option.getD none K.mode) K.size none with
        pix := fun i j => binopKernel "add" (K.pix i j) (i1.pix i j) } := by
    apply Image.extEq
    · exact hmode
    · exact hsize
    · intro i j
      show binopKernel "add" (i1.pix i j) (K.pix i j)
        = binopKernel "add" (K.pix i j) (i1.pix i j)
      rw [binopKernel_add, binopKernel_add, hKpix]
      exact Rat.add_comm _ c
  rw [himg]

/-- For every image, the two `apply` invocations behind `x + c` and `c + x`
agree, whatever the image's mode (on an unsupported mode both fail with the
same error). -/
theorem add_apply_comm (im : Image) (c : Rat) :
    _Operand.apply ⟨im⟩ "add" (.inl ⟨im⟩) (some (.inr c)) none
      = _Operand.apply ⟨im⟩ "add" (.inr c) (some (.inl ⟨im⟩)) none := by
  by_cases h1 : im.mode = "1"
  · refine add_apply_comm_core ⟨im⟩ c (im.convert "I") (Image.new "I" im.size (some c))
      (fixup_inl_1L ⟨im⟩ ⟨im⟩ (Or.inl h1))
      (fixup_inr_int ⟨im⟩ c (Or.inl h1)) rfl rfl (fun i j => rfl) rfl
  · by_cases h2 : im.mode = "L"
    · exact add_apply_comm_core ⟨im⟩ c (im.convert "I") (Image.new "I" im.size (some c))
        (fixup_inl_1L ⟨im⟩ ⟨im⟩ (Or.inr h2))
        (fixup_inr_int ⟨im⟩ c (Or.inr (Or.inl h2))) rfl rfl (fun i j => rfl) rfl
    · by_cases h3 : im.mode = "I"
      · refine add_apply_comm_core ⟨im⟩ c im (Image.new "I" im.size (some c))
          (fixup_inl_IF ⟨im⟩ ⟨im⟩ (Or.inl h3))
          (fixup_inr_int ⟨im⟩ c (Or.inr (Or.inr h3)))
          (by rw [h3]; rfl) rfl (fun i j => rfl) ?_
        rw [h3]
        rfl
      · by_cases h4 : im.mode = "F"
        · refine add_apply_comm_core ⟨im⟩ c im (Image.new "F" im.size (some c))
            (fixup_inl_IF ⟨im⟩ ⟨im⟩ (Or.inr h4))
            (fixup_inr_float ⟨im⟩ c h1 h2 h3)
            (by rw [h4]; rfl) rfl (fun i j => rfl) ?_
          rw [h4]
          rfl
        · have hfix : _Operand.fixup ⟨im⟩ (.inl ⟨im⟩)
              = .error (.unsupportedMode im.mode) :=
            fixup_inl_unsupported ⟨im⟩ ⟨im⟩ h1 h2 h3 h4
          rw [apply_err_fst ⟨im⟩ "add" (.inl ⟨im⟩)
              (some (.inr c)) none _ hfix,
            apply_err_snd ⟨im⟩ "add" (.inr c) (.inl ⟨im⟩) none
              (Image.new "F" im.size (some c)) _
              (fixup_inr_float ⟨im⟩ c h1 h2 h3) hfix]


/-- C8 (counterexample): `lshift` and `rshift` have no right-handed form on
an Operand: evaluating `2 << x` (and `2 >> x`) over an image binding fails
with a host `TypeError` and invokes no kernel, while the left-handed form
`x << 2` succeeds; so operand order cannot be "preserved correctly in the
right-handed form" of the shifts — no such form exists. -/
theorem c8_counterexample :
    evalTrace (.binop .lshift (.num 2) (.name "x")) [("x", .image testImgI)]
      = (.error (.typeError "no reflected lshift on Operand"), 0)
    ∧ evalTrace (.binop .rshift (.num 2) (.name "x")) [("x", .image testImgI)]
      = (.error (.typeError "no reflected rshift on Operand"), 0)
    ∧ ∃ out, evalTrace (.binop .lshift (.name "x") (.num 2)) [("x", .image testImgI)]
        = (.ok (.rawImage out), 1) :=
  ⟨rfl, rfl, ⟨_, rfl⟩⟩

/-- C8 (amended): every operator that has a right-handed form (add, sub,
mul, div, mod, pow, and, or, xor — but not lshift or rshift, which have
none, so that `constant << image` fails with a TypeError) produces the
result of `apply` with operand order preserved: the reflected dispatch of
the non-commutative sub/div/mod/pow routes to `apply(op, other, self)`, and
`c - x` really computes `c` minus the pixels of `x`; in particular
`eval("x + c")` equals `eval("c + x")` for every constant and image. -/
theorem c8_right_handed_amended :
    (∀ (c : Rat) (im : Image),
      evalTrace (.binop .add (.name "x") (.num c)) [("x", .image im)]
        = evalTrace (.binop .add (.num c) (.name "x")) [("x", .image im)])
    ∧ (∀ (c : Rat) (x : _Operand),
        applyBinOp .sub (.num c) (.img x) = liftApplyR (x.rsubM (.inr c))
        ∧ applyBinOp .div (.num c) (.img x) = liftApplyR (x.rdivM (.inr c))
        ∧ applyBinOp .mod (.num c) (.img x) = liftApplyR (x.rmodM (.inr c))
        ∧ applyBinOp .pow (.num c) (.img x) = liftApplyR (x.rpowM (.inr c))
        ∧ x.rsubM (.inr c) = x.apply "sub" (.inr c) (some (.inl x)) none
        ∧ x.rdivM (.inr c) = x.apply "div" (.inr c) (some (.inl x)) none
        ∧ x.rmodM (.inr c) = x.apply "mod" (.inr c) (some (.inl x)) none
        ∧ x.rpowM (.inr c) = x.apply "pow" (.inr c) (some (.inl x)) none)
    ∧ (∀ (c : Rat) (im : Image), im.mode = "I" →
        ∃ out : Image,
          evalTrace (.binop .sub (.num c) (.name "x")) [("x", .image im)]
            = (.ok (.rawImage out), 1)
          ∧ out.mode = "I" ∧ out.size = im.size
          ∧ ∀ i j, out.pix i j = c - im.pix i j)
    ∧ (∀ (c : Rat) (x : _Operand),
        applyBinOp .lshift (.num c) (.img x)
          = (.error (.typeError "no reflected lshift on Operand"), 0)
        ∧ applyBinOp .rshift (.num c) (.img x)
          = (.error (.typeError "no reflected rshift on Operand"), 0)) := by
  refine ⟨?_, ?_, ?_, ?_⟩
  · intro c im
    have happly_eq := add_apply_comm im c
    rcases hA : applyBinOp .add (.img ⟨im⟩) (.num c) with ⟨r, k⟩
    have hA2 : applyBinOp .add (.num c) (.img ⟨im⟩) = (r, k) := by
      have e1 : applyBinOp .add (.img ⟨im⟩) (.num c)
          = liftApplyR (_Operand.apply ⟨im⟩ "add" (.inl (⟨im⟩ : _Operand))
              (some (.inr c)) none) := rfl
      have e2 : applyBinOp .add (.num c) (.img ⟨im⟩)
          = liftApplyR (_Operand.apply ⟨im⟩ "add" (.inr c)
              (some (.inl (⟨im⟩ : _Operand))) none) := rfl
      rw [e2, ← happly_eq, ← e1, hA]
    rw [evalTrace_eq_finish (.binop .add (.name "x") (.num c))
        [("x", .image im)] rfl rfl,
      evalTrace_eq_finish (.binop .add (.num c) (.name "x"))
        [("x", .image im)] rfl rfl,
      evalExpr_binop (buildNamespace [("x", .image im)]) .add (.name "x") (.num c)
        (.img ⟨im⟩) (.num c) 0 0 r k rfl rfl hA,
      evalExpr_binop (buildNamespace [("x", .image im)]) .add (.num c) (.name "x")
        (.num c) (.img ⟨im⟩) 0 0 r k rfl rfl hA2]
  · intro c x
    exact ⟨rfl, rfl, rfl, rfl, rfl, rfl, rfl, rfl⟩
  · intro c im h
    have hcfix : _Operand.fixup ⟨im⟩ (.inr c)
        = .ok (Image.new "I" im.size (some c)) :=
      fixup_inr_int ⟨im⟩ c (Or.inr (Or.inr h))
    have hxfix : _Operand.fixup ⟨im⟩ (.inl ⟨im⟩) = .ok im :=
      fixup_inl_IF ⟨im⟩ ⟨im⟩ (Or.inl h)
    have hmode : (Image.new "I" im.size (some c)).mode = im.mode := by
      rw [h]
      rfl
    have hmL := reconcileModes_of_eq (Image.new "I" im.size (some c)) im hmode
    have hsL := reconcileSizes_of_eq (Image.new "I" im.size (some c)) im rfl
    have happly := apply_binary_eq ⟨im⟩ "sub" (.inr c) (.inl ⟨im⟩) none
      (Image.new "I" im.size (some c)) im
      (Image.new "I" im.size (some c)) im
      (Image.new "I" im.size (some c)) im hcfix hxfix hmL hsL
    rw [if_pos (show kernelDefined
        ("sub" ++ "_" ++ (Image.new "I" im.size (some c)).mode) = true from rfl)]
      at happly
    have hA : applyBinOp .sub (.num c) (.img ⟨im⟩)
        = (.ok (.img ⟨{ Image.new
            (Option.getD none (Image.new "I" im.size (some c)).mode)
            (Image.new "I" im.size (some c)).size none with
            pix := fun i j => binopKernel "sub"
              ((Image.new "I" im.size (some c)).pix i j) (im.pix i j) }⟩), 1) := by
      have base : applyBinOp .sub (.num c) (.img ⟨im⟩)
          = liftApplyR (_Operand.apply ⟨im⟩ "sub" (.inr c)
              (some (.inl (⟨im⟩ : _Operand))) none) := rfl
      rw [base, happly]
      rfl
    refine ⟨{ Image.new (Option.getD none (Image.new "I" im.size (some c)).mode)
        (Image.new "I" im.size (some c)).size none with
        pix := fun i j => binopKernel "sub"
          ((Image.new "I" im.size (some c)).pix i j) (im.pix i j) },
      ?_, rfl, rfl, fun i j => rfl⟩
    rw [evalTrace_eq_finish (.binop .sub (.num c) (.name "x"))
        [("x", .image im)] rfl rfl,
      evalExpr_binop (buildNamespace [("x", .image im)]) .sub (.num c) (.name "x")
        (.num c) (.img ⟨im⟩) 0 0 _ 1 rfl rfl hA]
    rfl
  · intro c x
    exact ⟨rfl, rfl⟩

theorem c8_right_handed_amended_witness :
    (evalTrace (.binop .add (.name "x") (.num 2)) [("x", .image testImgI)]
      = evalTrace (.binop .add (.num 2) (.name "x")) [("x", .image testImgI)])
    ∧ testImgI.mode = "I"
    ∧ ∃ out : Image,
        evalTrace (.binop .sub (.num 7) (.name "x")) [("x", .image testImgI)]
          = (.ok (.rawImage out), 1)
        ∧ out.mode = "I" ∧ out.size = testImgI.size
        ∧ ∀ i j, out.pix i j = 7 - testImgI.pix i j :=
  ⟨c8_right_handed_amended.1 2 testImgI, rfl,
   c8_right_handed_amended.2.2.1 7 testImgI rfl⟩

/-- C9 (counterexample): unary `+` does not return a fresh Operand wrapping a
newly allocated result: `__pos__` returns its operand itself (`return self`),
so its result is the input Operand, not a new one. -/
theorem c9_counterexample : _Operand.posM testOp = testOp := rfl

/-- C9 (amended): no operation mutates its operands (the operator surface is
a pure function of the operands); every operator except unary `+` routes
through `apply` with its operation name, and a successful unary `apply`
wraps an output image built afresh by `Image.new` and the kernel — but
unary `+` returns its operand itself rather than a new result. -/
theorem c9_operator_surface_amended :
    (∀ x : _Operand, x.posM = x)
    ∧ (∀ (x : _Operand) (i1 : Image), x.fixup (.inl x) = .ok i1 →
        x.negM = if kernelDefined ("neg" ++ "_" ++ i1.mode) then
            .ok ⟨{ Image.new i1.mode i1.size none with
                   pix := fun i j => unopKernel "neg" (i1.pix i j) }⟩
          else .error (.badOperandType "neg"))
    ∧ (∀ (x : _Operand) (other : _Operand ⊕ Rat),
        x.absM = x.apply "abs" (.inl x) none none
        ∧ x.negM = x.apply "neg" (.inl x) none none
        ∧ x.invertM = x.apply "invert" (.inl x) none none
        ∧ x.addM other = x.apply "add" (.inl x) (some other) none
        ∧ x.raddM other = x.apply "add" other (some (.inl x)) none
        ∧ x.subM other = x.apply "sub" (.inl x) (some other) none
        ∧ x.rsubM other = x.apply "sub" other (some (.inl x)) none
        ∧ x.mulM other = x.apply "mul" (.inl x) (some other) none
        ∧ x.rmulM other = x.apply "mul" other (some (.inl x)) none
        ∧ x.divM other = x.apply "div" (.inl x) (some other) none
        ∧ x.rdivM other = x.apply "div" other (some (.inl x)) none
        ∧ x.modM other = x.apply "mod" (.inl x) (some other) none
        ∧ x.rmodM other = x.apply "mod" other (some (.inl x)) none
        ∧ x.powM other = x.apply "pow" (.inl x) (some other) none
        ∧ x.rpowM other = x.apply "pow" other (some (.inl x)) none
        ∧ x.andM other = x.apply "and" (.inl x) (some other) none
        ∧ x.randM other = x.apply "and" other (some (.inl x)) none
        ∧ x.orM other = x.apply "or" (.inl x) (some other) none
        ∧ x.rorM other = x.apply "or" other (some (.inl x)) none
        ∧ x.xorM other = x.apply "xor" (.inl x) (some other) none
        ∧ x.rxorM other = x.apply "xor" other (some (.inl x)) none
        ∧ x.lshiftM other = x.apply "lshift" (.inl x) (some other) none
        ∧ x.rshiftM other = x.apply "rshift" (.inl x) (some other) none
        ∧ x.eqM other = x.apply "eq" (.inl x) (some other) none
        ∧ x.neM other = x.apply "ne" (.inl x) (some other) none
        ∧ x.ltM other = x.apply "lt" (.inl x) (some other) none
        ∧ x.leM other = x.apply "le" (.inl x) (some other) none
        ∧ x.gtM other = x.apply "gt" (.inl x) (some other) none
        ∧ x.geM other = x.apply "ge" (.inl x) (some other) none) := by
  refine ⟨fun x => rfl, ?_, ?_⟩
  · intro x i1 h
    exact apply_unary_eq x "neg" (.inl x) none i1 h
  · intro x other
    exact ⟨rfl, rfl, rfl, rfl, rfl, rfl, rfl, rfl, rfl, rfl, rfl, rfl, rfl, rfl,
      rfl, rfl, rfl, rfl, rfl, rfl, rfl, rfl, rfl, rfl, rfl, rfl, rfl, rfl, rfl⟩

theorem c9_operator_surface_amended_witness :
    testOp.fixup (.inl testOp) = .ok testImgI
    ∧ testOp.negM = (if kernelDefined ("neg" ++ "_" ++ testImgI.mode) then
        .ok ⟨{ Image.new testImgI.mode testImgI.size none with
               pix := fun i j => unopKernel "neg" (testImgI.pix i j) }⟩
      else .error (.badOperandType "neg")) :=
  ⟨rfl, c9_operator_surface_amended.2.1 testOp testImgI rfl⟩

end ImageMath
